import Mathlib

/-!
Verification of the diffraction-analysis core of simex_platform against its
specification.  The Python source (`SimEx/Analysis/DiffractionAnalysis.py`,
`SimEx/Utilities/IOUtilities.py` and the detector-geometry unit test) is
shallowly embedded below: pure fragments become Lean functions, file-system
and HDF5 access are passed in explicitly as read functions, Python floats on
the beam-geometry side are modelled by real numbers, and exact quantities
(photon counts, panel attributes) by rationals and integers.  Exceptions are
modelled by `Option`/`Except`.
-/

namespace Simex

/-! ## Strings as Python compares and splits them

Python 2 compares byte strings lexicographically by code unit, and
`f.split('.')[-1]` takes the substring after the last dot.  These helpers are
written by structural recursion over the character list so that concrete
instances reduce inside the kernel. -/

/-- Lexicographic comparison of character lists by code point, the order
Python uses when sorting a directory listing of file names. -/
def charListLe : List Char → List Char → Bool
  | [], _ => true
  | _ :: _, [] => false
  | c :: cs, d :: ds =>
    if c.toNat < d.toNat then true
    else if d.toNat < c.toNat then false
    else charListLe cs ds

/-- String comparison used by `dir_listing.sort()`. -/
def strLe (a b : String) : Bool := charListLe a.data b.data

/-- `dir_listing.sort()`: stable sort by the lexicographic string order. -/
def sortListing (l : List String) : List String :=
  List.insertionSort (fun a b => strLe a b = true) l

/-- `s.split('.')` on the character level: split at every dot. -/
def splitOnDot : List Char → List (List Char)
  | [] => [[]]
  | c :: cs =>
    let r := splitOnDot cs
    if c = '.' then [] :: r
    else
      match r with
      | [] => [[c]]
      | h :: t => (c :: h) :: t

/-- `f.split('.')[-1]`: the part of a file name after its last dot (the whole
name when it has no dot). -/
def lastExt (f : String) : String :=
  String.mk ((splitOnDot f.data).getLastD [])

/-- The filter `f.split('.')[-1] == "h5"` used on directory listings. -/
def isH5 (f : String) : Bool := lastExt f == "h5"

/-! ## patternGenerator, legacy (directory) branch

Source (`DiffractionAnalysis.patternGenerator`):
```
dir_listing = os.listdir(path)
dir_listing.sort()
if indices != 'all':
    dir_listing = [d for (i,d) in enumerate(dir_listing) if i in indices]
h5_files = [os.path.join(path, f) for f in dir_listing if f.split('.')[-1] == "h5"]
for h5_file in h5_files:
    try:
        ... read '/data/data' or '/data/diffr' ... yield
    except:
        continue
```
The explicit index selection (`indices != 'all'`) is applied to the sorted
listing *before* the `h5` filter.  A selection of `'all'` is modelled by
`none`, an explicit index list by `some ixs`. -/

/-- `[d for (i,d) in enumerate(xs) if i in ixs]`, with `k` the index of the
first element of `xs` in the enumeration. -/
def selectPos (ixs : List ℕ) : List String → ℕ → List String
  | [], _ => []
  | x :: xs, k =>
    if k ∈ ixs then x :: selectPos ixs xs (k + 1) else selectPos ixs xs (k + 1)

/-- The files the legacy branch iterates over: sort the directory listing,
apply an explicit index selection to the *sorted, unfiltered* listing, then
keep the names with extension `h5`. -/
def legacySelectedFiles (listing : List String) (indices : Option (List ℕ)) :
    List String :=
  let sorted := sortListing listing
  let chosen :=
    match indices with
    | none => sorted
    | some ixs => selectPos ixs sorted 0
  chosen.filter (fun f => isH5 f)

/-- The reading the specification describes for the same branch: filter the
sorted listing to `h5` files first, then interpret each explicit index as a
position into that pre-filtered listing.  This definition follows the spec's
words and exists only to be compared with `legacySelectedFiles`, which is
translated from the source. -/
def specSelectedFiles (listing : List String) (indices : Option (List ℕ)) :
    List String :=
  let filtered := (sortListing listing).filter (fun f => isH5 f)
  match indices with
  | none => filtered
  | some ixs => selectPos ixs filtered 0

/-- Dataset read inside each legacy file: `'/data/' + ('data'|'diffr')`
depending on the `poissonize` flag. -/
def legacyDatasetPath (poissonize : Bool) : String :=
  "/data/" ++ (if poissonize then "data" else "diffr")

/-- The legacy read loop: a bare `try: ... yield ... except: continue`, so a
file whose read fails (`read f = none`) is silently skipped and iteration
continues with the next file. -/
def legacyYields {α : Type} (read : String → Option α) : List String → List α
  | [] => []
  | f :: fs =>
    match read f with
    | some v => v :: legacyYields read fs
    | none => legacyYields read fs

/-- The whole legacy branch: select files from the listing, then read the
poissonize-dependent dataset from each, skipping unreadable files.
`read file ds` returns the 2-D array stored at dataset path `ds` of `file`,
or `none` when opening or reading fails. -/
def legacyGenerator {α : Type} (read : String → String → Option α)
    (listing : List String) (indices : Option (List ℕ)) (poissonize : Bool) :
    List α :=
  legacyYields (fun f => read f (legacyDatasetPath poissonize))
    (legacySelectedFiles listing indices)

/-! ## patternGenerator, consolidated (single-file) branch

Source:
```
with h5py.File(path, 'r') as h5:
    if indices is None or indices == 'all':
        indices = [key for key in h5['data'].iterkeys()]
    else:
        indices = ["%0.7d" % ix for ix in indices]
    for ix in indices:
        root_path = '/data/%s/' % (ix)
        ... read root_path + ('data'|'diffr') ... yield
```
No `try`/`except` here: a failing read raises and aborts the iteration. -/

/-- `"%0.7d" % n`: decimal digits of `n` left-padded with zeros to width 7. -/
def pad7 (n : ℕ) : String :=
  let s := Nat.repr n
  String.mk (List.replicate (7 - s.length) '0') ++ s

/-- The `/data/<key>` child keys the consolidated branch iterates over:
every key of the file when the selection is `'all'` (`none`), otherwise the
7-digit zero-padded form of each requested integer. -/
def consolidatedKeys (fileKeys : List String) (indices : Option (List ℕ)) :
    List String :=
  match indices with
  | none => fileKeys
  | some ixs => ixs.map pad7

/-- Dataset path read for one consolidated key. -/
def consolidatedDatasetPath (key : String) (poissonize : Bool) : String :=
  "/data/" ++ key ++ "/" ++ (if poissonize then "data" else "diffr")

/-- Read a list of dataset paths in order; the first failing read aborts the
whole iteration with an error naming the dataset (the uncaught `KeyError` /
read exception of the consolidated branch). -/
def readAllOrFail {α : Type} (read : String → Option α) :
    List String → Except String (List α)
  | [] => .ok []
  | p :: ps =>
    match read p with
    | none => .error p
    | some v => (readAllOrFail read ps).map (fun vs => v :: vs)

/-- The whole consolidated branch of `patternGenerator`. -/
def consolidatedGenerator {α : Type} (read : String → Option α)
    (fileKeys : List String) (indices : Option (List ℕ)) (poissonize : Bool) :
    Except String (List α) :=
  readAllOrFail read
    ((consolidatedKeys fileKeys indices).map
      (fun k => consolidatedDatasetPath k poissonize))

/-! ## The pattern_indices setter

Source (`DiffractionAnalysis.pattern_indices.setter`):
```
indices = pattern_indices
if indices is None:
    indices = 'all'
if not (isinstance(indices, int) or indices == 'all' or hasattr(indices, '__iter__')):
    raise TypeError(...)
if isinstance(pattern_indices, int):
    indices = [pattern_indices]
self.__pattern_indices = indices
```
Python values that can reach the setter are modelled by `PyVal`; in Python 2
a `str` has no `__iter__` attribute and `isinstance` recognises exactly the
integers. -/

/-- A Python value handed to the `pattern_indices` setter. `pyother` stands
for any non-integer, non-string, non-iterable object (a float, say). -/
inductive PyVal where
  | pynone
  | pyint (k : ℤ)
  | pystr (s : String)
  | pylist (xs : List ℤ)
  | pyother
deriving DecidableEq

/-- `isinstance(v, int)`. -/
def PyVal.isInt : PyVal → Bool
  | .pyint _ => true
  | _ => false

/-- `hasattr(v, '__iter__')` in Python 2: lists have the attribute, strings,
integers, `None` and plain objects do not. -/
def PyVal.hasIterAttr : PyVal → Bool
  | .pylist _ => true
  | _ => false

/-- The `pattern_indices` setter: `None` becomes the sentinel `'all'`, a
value that is neither an integer nor `'all'` nor iterable raises `TypeError`,
and an integer argument is wrapped into a one-element list. -/
def setPatternIndices (v : PyVal) : Except String PyVal :=
  let ind := match v with
    | .pynone => .pystr "all"
    | x => x
  if ind.isInt || (ind == .pystr "all") || ind.hasIterAttr then
    .ok (match v with
      | .pyint k => .pylist [k]
      | _ => ind)
  else
    .error "TypeError: pattern_indices must be an int, iterable over ints, or all"

/-- The constructor order of `DiffractionAnalysis.__init__`: the
`pattern_indices` assignment (and its type check) runs first, and only then
are the parameters loaded from the input file (`diffractionParameters`), the
first I/O of the constructor.  `loadParams` is `none` when that read fails. -/
def analysisInit {π : Type} (v : PyVal) (loadParams : Option π) :
    Except String (PyVal × π) :=
  match setPatternIndices v with
  | .error e => .error e
  | .ok sel =>
    match loadParams with
    | none => .error "IOError"
    | some ps => .ok (sel, ps)

/-! ## diffractionParameters

Source:
```
if os.path.isdir(path):
    h5_file = os.path.join(path, "diffr_out_0000001.h5")
elif os.path.isfile(path):
    h5_file = path
else:
    raise IOError("%s: no such file or directory." % (path))
parameters_dict = {'beam':{}, 'geom':{}}
with h5py.File(h5_file, 'r') as h5:
    for top_key in ['beam', 'geom']:
        for key, val in h5['params/%s' % (top_key)].iteritems():
            parameters_dict[top_key][key] = val.value
return parameters_dict
```
The file system and HDF5 reader are passed in as `ParamFS`: `h5` returns the
children of `params/beam` and `params/geom` of a file, or `none` when opening
or reading the file fails. -/

/-- Children of the two parameter groups of one HDF5 file, as (name, value)
association lists in group iteration order. -/
structure ParamFile (V : Type) where
  beam : List (String × V)
  geom : List (String × V)

/-- The file-system collaborators used by `diffractionParameters`. -/
structure ParamFS (V : Type) where
  isDir : String → Bool
  isFile : String → Bool
  h5 : String → Option (ParamFile V)

/-- `os.path.join(path, name)` for a directory path without trailing slash. -/
def dirJoin (path name : String) : String := path ++ "/" ++ name

/-- One Python dict insertion `d[k] = v`: replace the value of an existing
key, otherwise add the binding. -/
def dictInsert {V : Type} : List (String × V) → String → V → List (String × V)
  | [], k, v => [(k, v)]
  | (k', v') :: rest, k, v =>
    if k' = k then (k, v) :: rest else (k', v') :: dictInsert rest k v

/-- Dict lookup `d[k]`. -/
def dictGet {V : Type} : List (String × V) → String → Option V
  | [], _ => none
  | (k', v') :: rest, k => if k' = k then some v' else dictGet rest k

/-- The loop `for key, val in ...iteritems(): parameters_dict[top][key] = val`
starting from the empty dict. -/
def buildDict {V : Type} (entries : List (String × V)) : List (String × V) :=
  entries.foldl (fun d kv => dictInsert d kv.1 kv.2) []

/-- Read the two parameter groups of `file`: a failing file read propagates
(no handler in `diffractionParameters`). -/
def readParams {V : Type} (fs : ParamFS V) (file : String) :
    Except String (List (String × V) × List (String × V)) :=
  match fs.h5 file with
  | none => .error ("could not read " ++ file)
  | some pf => .ok (buildDict pf.beam, buildDict pf.geom)

/-- `diffractionParameters(path)`: a directory is resolved to its
conventionally named first frame file, a regular file is read directly, and
anything else raises `IOError` before any read. -/
def diffractionParameters {V : Type} (fs : ParamFS V) (path : String) :
    Except String (List (String × V) × List (String × V)) :=
  if fs.isDir path then readParams fs (dirJoin path "diffr_out_0000001.h5")
  else if fs.isFile path then readParams fs path
  else .error (path ++ ": no such file or directory.")

/-! ## photonStatistics

Source:
```
number_of_images = stack.shape[0]
photons = numpy.sum(stack, axis=(1,2))
avg_photons = numpy.mean(photons)
rms_photons = numpy.std(photons)
print "avg = %s, std = %s" % (avg_photons, rms_photons)
plt.figure()
max_photon_number = numpy.max( photons )
min_photon_number = numpy.min( photons )
binwidth = max_photon_number - min_photon_number
number_of_bins = min(20, number_of_images)
binwidth = int( binwidth / number_of_bins )
plt.hist(photons, bins=xrange(min_photon_number, max_photon_number, binwidth), ...)
```
Frame entries are exact numbers, modelled by rationals; `numpy.std` is the
population (N-divisor) standard deviation, which needs a square root and so
lives in the reals. `int(...)` truncates toward zero and `xrange` with step 0
raises `ValueError`. -/

/-- A 2-D frame. -/
def Frame : Type := List (List ℚ)

/-- `numpy.sum(frame)`: the sum of all entries of one frame. -/
def frameSum (f : Frame) : ℚ := (f.map (fun row => row.sum)).sum

/-- `numpy.sum(stack, axis=(1,2))`: per-frame totals. -/
def photonsOf (stack : List Frame) : List ℚ := stack.map frameSum

/-- `numpy.max` over a one-dimensional array (0 on the empty array, which
numpy rejects anyway). -/
def listMax : List ℚ → ℚ
  | [] => 0
  | x :: xs => xs.foldl max x

/-- `numpy.min` over a one-dimensional array. -/
def listMin : List ℚ → ℚ
  | [] => 0
  | x :: xs => xs.foldl min x

/-- `numpy.mean(photons)`. -/
def avgPhotons (stack : List Frame) : ℚ :=
  (photonsOf stack).sum / (stack.length : ℚ)

/-- The population variance `mean(|photons - mean(photons)|^2)` that
`numpy.std` takes the square root of. -/
def varPhotons (stack : List Frame) : ℚ :=
  ((photonsOf stack).map (fun p => (p - avgPhotons stack) ^ 2)).sum /
    (stack.length : ℚ)

/-- `numpy.std(photons)`: population (N-divisor) standard deviation. -/
noncomputable def stdPhotons (stack : List Frame) : ℝ :=
  Real.sqrt ((varPhotons stack : ℚ) : ℝ)

/-- Python `int(q)`: truncation toward zero. -/
def intTrunc (q : ℚ) : ℤ := Int.tdiv q.num (q.den : ℤ)

/-- `xrange(cur, stop, step)` for positive `step`, driven by fuel. -/
def xrangeGo (step : ℤ) : ℕ → ℤ → ℤ → List ℤ
  | 0, _, _ => []
  | fuel + 1, cur, stop =>
    if cur < stop then cur :: xrangeGo step fuel (cur + step) stop else []

/-- `xrange(start, stop, step)` with `step > 0`. -/
def xrangeZ (start stop step : ℤ) : List ℤ :=
  xrangeGo step (stop - start).toNat start stop

/-- The histogram bin edges of `photonStatistics`:
`xrange(min, max, int((max - min) / min(20, N)))`.  A zero truncated bin
width makes `xrange` raise `ValueError`; nothing catches it. -/
def histBins (stack : List Frame) : Except String (List ℤ) :=
  let photons := photonsOf stack
  let mx := listMax photons
  let mn := listMin photons
  let nbins : ℕ := min 20 stack.length
  let binwidth := intTrunc ((mx - mn) / (nbins : ℚ))
  if binwidth = 0 then .error "ValueError: xrange() arg 3 must not be zero"
  else .ok (xrangeZ (intTrunc mn) (intTrunc mx) binwidth)

/-- Everything `photonStatistics` produces, in evaluation order: the average
and standard deviation are computed and printed first, the histogram call
comes last and is the only part that can fail. -/
structure PhotonStats where
  avg : ℚ
  rms : ℝ
  hist : Except String (List ℤ)

/-- `photonStatistics(stack)`. -/
noncomputable def photonStatistics (stack : List Frame) : PhotonStats :=
  { avg := avgPhotons stack
    rms := stdPhotons stack
    hist := histBins stack }

/-! ## plotResolutionRings

Source:
```
E0 = beam['photonEnergy']
lmd = 1239.8 / E0
apix = geom['pixelWidth']
Ddet = geom['detectorDist']
Npix = geom['mask'].shape[0]
theta_max = math.atan( 0.5*Npix * apix / Ddet )
d_min = 0.5*lmd/math.sin(theta_max)
d0 = 0.1*math.ceil(d_min*10.0)
ds = numpy.array([1.0, 0.5, .3])
Ns = Ddet/apix * numpy.arctan(numpy.arcsin(lmd/2./ds))
```
The float computation is modelled over the reals.  `numpy.arcsin` does not
raise on a value outside `[-1, 1]`: it emits a warning and produces NaN,
modelled as `none`; inside the domain it agrees with the real arcsine. -/

/-- The ring radius in pixels for one target spacing `d` (nm), with the
arcsine taken as the real function: `Ddet/apix * atan(asin(lmd/2/d))`. -/
noncomputable def ringRadius (E0 apix Ddet d : ℝ) : ℝ :=
  Ddet / apix * Real.arctan (Real.arcsin (1239.8 / E0 / 2 / d))

/-- The three ring radii at the fixed parameter set of the spec's test case
(`photonEnergy = 6000 eV`, `pixelWidth = 2.2e-4 m`, `detectorDist = 0.13 m`),
as a function of the target spacing in nm. -/
noncomputable def ringRadius6000 (d : ℝ) : ℝ :=
  ringRadius 6000 2.2e-4 0.13 d

/-- `numpy.arcsin`: NaN (here `none`) outside `[-1, 1]`, no exception. -/
noncomputable def arcsinNumpy (x : ℝ) : Option ℝ :=
  if -1 ≤ x ∧ x ≤ 1 then some (Real.arcsin x) else none

/-- The NaN-propagating radius computation the source actually performs:
`Ddet/apix * numpy.arctan(numpy.arcsin(lmd/2./ds))` over
`ds = [1.0, 0.5, 0.3]`.  The result is always a 3-element list — a domain
violation yields a `none` (NaN) entry instead of an error. -/
noncomputable def ringRadiiNumpy (E0 apix Ddet : ℝ) : List (Option ℝ) :=
  [1, 0.5, 0.3].map
    (fun d => (arcsinNumpy (1239.8 / E0 / 2 / d)).map
      (fun a => Ddet / apix * Real.arctan a))

/-! ## DetectorPanel serialization

Modelled from the spec: the `DetectorPanel` class and its `_serialize`
method live in `SimEx/Parameters/DetectorGeometry.py`, which is not among the
provided sources — only its unit test
(`SimExTest/Parameters/DetectorGeometryTest.py`) is.  The data model follows
spec §3/§4.1 (only the attributes that appear in the serialized block are
carried; length quantities are stored as exact rationals in meters), and the
block format follows spec §4.1 together with the byte-exact reference string
of `DetectorPanelTest.testSerialize`.

The numeric format of the `clen`/`res` fields is C/Python `%.7e`: a mantissa
with one leading digit and 7 fractional digits, and a signed two-digit
exponent.  It is implemented below over the numerator and denominator with
integer arithmetic only, so concrete instances reduce inside the kernel. -/

/-- `10 ^ k` as an integer. -/
def pow10 : ℕ → ℤ
  | 0 => 1
  | k + 1 => 10 * pow10 k

/-- Largest `e` with `den * 10 ^ e ≤ num` (for `0 < den ≤ num`), found by
scaling the denominator; `fuel` only drives termination. -/
def expSearchUp (num : ℤ) : ℤ → ℕ → ℕ
  | _, 0 => 0
  | den, fuel + 1 =>
    if num < den * 10 then 0 else expSearchUp num (den * 10) fuel + 1

/-- Smallest `k ≥ 1` with `den ≤ num * 10 ^ k` (for `0 < num < den`). -/
def expSearchDown (den : ℤ) : ℤ → ℕ → ℕ
  | _, 0 => 1
  | num, fuel + 1 =>
    if den ≤ num * 10 then 1 else expSearchDown den (num * 10) fuel + 1

/-- `⌊a/b + 1/2⌋` for `a ≥ 0`, `b > 0`: round half up. -/
def roundHalfUp (a b : ℤ) : ℤ := Int.tdiv (2 * a + b) (2 * b)

/-- Mantissa digits and decimal exponent of `num/den > 0`: returns `(m, e)`
with `10^7 ≤ m < 10^8` holding the 8 significant digits after rounding, and
`num/den ≈ (m / 10^7) * 10^e`. -/
def sciDigits (num den : ℤ) (fuel : ℕ) : ℤ × ℤ :=
  if den ≤ num then
    let e := expSearchUp num den fuel
    let m := roundHalfUp (num * pow10 7) (den * pow10 e)
    if m < pow10 8 then (m, (e : ℤ)) else (pow10 7, (e : ℤ) + 1)
  else
    let k := expSearchDown den num fuel
    let m := roundHalfUp (num * pow10 (7 + k)) den
    if m < pow10 8 then (m, -(k : ℤ)) else (pow10 7, -(k : ℤ) + 1)

/-- Left-pad a string with zeros to width `w`. -/
def padZeros (s : String) (w : ℕ) : String :=
  String.mk (List.replicate (w - s.length) '0') ++ s

/-- The exponent part of `%.7e`: sign and at least two digits. -/
def expString (e : ℤ) : String :=
  if e < 0 then "e-" ++ padZeros (Nat.repr (-e).toNat) 2
  else "e+" ++ padZeros (Nat.repr e.toNat) 2

/-- `%.7e` for the positive rational `num/den` (`0 < num`, `0 < den`). -/
def sciFmtPos (num den : ℤ) : String :=
  let p := sciDigits num den (num.natAbs + den.natAbs)
  let lead := Int.tdiv p.1 (pow10 7)
  let frac := p.1 - lead * pow10 7
  toString lead ++ "." ++ padZeros (Nat.repr frac.toNat) 7 ++ expString p.2

/-- `"%.7e" % q` for a rational. -/
def sciFormat (q : ℚ) : String :=
  if q.num = 0 then "0.0000000e+00"
  else if q.num < 0 then "-" ++ sciFmtPos (-q.num) (q.den : ℤ)
  else sciFmtPos q.num (q.den : ℤ)

/-- `"%.7e" % (1/q)` for `q > 0`, computed directly on the reduced fraction:
the reciprocal of `num/den` is `den/num`. This is the serialization-time
computation of the `res` field (pixels per meter). -/
def recipFormat (q : ℚ) : String := sciFmtPos (q.den : ℤ) q.num

/-- Modelled from the spec: the attributes of `DetectorPanel`
(`SimEx/Parameters/DetectorGeometry.py`, not among the sources) that its
`_serialize` method writes.  Length quantities are exact rationals in meters
(`pixel_size > 0`); the scan ranges and corner offsets are integers; the
orientation expressions are the strings left after the constructor resolves
`None` to `"1.0*x"` / `"1.0*y"`. -/
structure DetectorPanel where
  fast_scan_min : ℤ
  fast_scan_max : ℤ
  slow_scan_min : ℤ
  slow_scan_max : ℤ
  corner_x : ℤ
  corner_y : ℤ
  fast_scan_xyz : String
  slow_scan_xyz : String
  distance_from_interaction_plane : ℚ
  pixel_size : ℚ

/-- Left-justify a field name to the fixed 21-character column of the block
format. -/
def ljust21 (s : String) : String :=
  s ++ String.mk (List.replicate (21 - s.length) ' ')

/-- One `panel<i>/<field> = <value>` line, newline included. -/
def panelLine (i : ℕ) (field value : String) : String :=
  ljust21 ("panel" ++ Nat.repr i ++ "/" ++ field) ++ "= " ++ value ++ "\n"

/-- Modelled from the spec: the lines `DetectorPanel._serialize` writes for
panel index `i`, in the fixed order of spec §4.1, followed by one blank
line. `clen` is the distance from the interaction plane in meters and `res`
is the reciprocal of the pixel size in meters, both in `%.7e` format and
computed at serialization time. -/
def panelLines (i : ℕ) (p : DetectorPanel) : List String :=
  [";panel " ++ Nat.repr i ++ "\n",
   panelLine i "min_fs" (toString p.fast_scan_min),
   panelLine i "max_fs" (toString p.fast_scan_max),
   panelLine i "min_ss" (toString p.slow_scan_min),
   panelLine i "max_ss" (toString p.slow_scan_max),
   panelLine i "corner_x" (toString p.corner_x),
   panelLine i "corner_y" (toString p.corner_y),
   panelLine i "fast_scan_xyz" p.fast_scan_xyz,
   panelLine i "slow_scan_xyz" p.slow_scan_xyz,
   panelLine i "clen" (sciFormat p.distance_from_interaction_plane),
   panelLine i "res" (recipFormat p.pixel_size),
   "\n"]

/-- Concatenation of the written lines. -/
def linesConcat : List String → String
  | [] => ""
  | l :: ls => l ++ linesConcat ls

/-- Modelled from the spec: `DetectorPanel._serialize(index, stream)` — the
byte string written to the stream. -/
def serializePanel (i : ℕ) (p : DetectorPanel) : String :=
  linesConcat (panelLines i p)

/-- `2.2e-4` as an exact rational (`11/50000`), in constructor form so that
kernel evaluation can project its numerator and denominator. -/
def pixelSizeTest : ℚ := Rat.mk' 11 50000 (by decide) (by decide)

/-- `0.13` as an exact rational (`13/100`). -/
def distanceTest : ℚ := Rat.mk' 13 100 (by decide) (by decide)

/-- The panel constructed in `DetectorPanelTest.setUp`, after the constructor
has resolved the `None` orientation defaults. -/
def testPanel : DetectorPanel :=
  { fast_scan_min := 0
    fast_scan_max := 511
    slow_scan_min := 512
    slow_scan_max := 1024
    corner_x := -512
    corner_y := -256
    fast_scan_xyz := "1.0*x"
    slow_scan_xyz := "1.0*y"
    distance_from_interaction_plane := distanceTest
    pixel_size := pixelSizeTest }

/-- The reference string of `DetectorPanelTest.testSerialize`. -/
def referenceSerialization : String :=
  ";panel 0\n" ++
  "panel0/min_fs        = 0\n" ++
  "panel0/max_fs        = 511\n" ++
  "panel0/min_ss        = 512\n" ++
  "panel0/max_ss        = 1024\n" ++
  "panel0/corner_x      = -512\n" ++
  "panel0/corner_y      = -256\n" ++
  "panel0/fast_scan_xyz = 1.0*x\n" ++
  "panel0/slow_scan_xyz = 1.0*y\n" ++
  "panel0/clen          = 1.3000000e-01\n" ++
  "panel0/res           = 4.5454545e+03\n" ++
  "\n"

/-! ## Concrete fixtures used to instantiate the theorems -/

/-- A read function with a single unreadable file. -/
def readFailW : String → Option ℕ :=
  fun f => if f = "bad.h5" then none else some 7

/-- A read function for the consolidated layout that stores the patterns of
indices 3 and 7. -/
def readW : String → Option ℕ :=
  fun p =>
    if p = "/data/0000003/data" then some 31
    else if p = "/data/0000007/data" then some 32
    else none

/-- HDF5 parameter content of one frame file. -/
def pfW : ParamFile ℤ :=
  { beam := [("photonEnergy", 6000)]
    geom := [("pixelWidth", 22), ("detectorDist", 13)] }

/-- A file system with one data directory holding the conventional first
frame file, one standalone frame file, and nothing else readable. -/
def fsW : ParamFS ℤ :=
  { isDir := fun p => p == "dir"
    isFile := fun p => p == "file.h5"
    h5 := fun f =>
      if f == "dir/diffr_out_0000001.h5" then some pfW
      else if f == "file.h5" then some pfW
      else none }

/-- A file system on which every HDF5 read fails. -/
def fsNoRead : ParamFS ℕ :=
  { isDir := fun _ => false
    isFile := fun _ => false
    h5 := fun _ => none }

/-- A stack of three 2x2 frames with per-frame totals 10, 20 and 30. -/
def stackC9 : List Frame :=
  [[[1, 2], [3, 4]], [[5, 5], [4, 6]], [[10, 5], [7, 8]]]

/-- A stack of three 1x1 frames with equal per-frame totals. -/
def stackC10 : List Frame := [[[2]], [[2]], [[2]]]

/-! ## Lemmas about position selection and filtering (claim C2) -/

theorem selectPos_append (ixs : List ℕ) (A B : List String) (k : ℕ) :
    selectPos ixs (A ++ B) k =
      selectPos ixs A k ++ selectPos ixs B (k + A.length) := by
  induction A generalizing k with
  | nil => simp [selectPos]
  | cons x xs ih =>
    simp only [List.cons_append, selectPos, List.length_cons]
    have harith : k + 1 + xs.length = k + (xs.length + 1) := by omega
    by_cases h : k ∈ ixs
    · simp [h, ih (k + 1), harith]
    · simp [h, ih (k + 1), harith]

theorem mem_of_mem_selectPos {ixs : List ℕ} {l : List String} {k : ℕ}
    {f : String} (h : f ∈ selectPos ixs l k) : f ∈ l := by
  induction l generalizing k with
  | nil => simp [selectPos] at h
  | cons x xs ih =>
    simp only [selectPos] at h
    by_cases hk : k ∈ ixs
    · rw [if_pos hk] at h
      rcases List.mem_cons.1 h with h1 | h2
      · exact h1 ▸ List.mem_cons_self x xs
      · exact List.mem_cons_of_mem x (ih h2)
    · rw [if_neg hk] at h
      exact List.mem_cons_of_mem x (ih h)

theorem filter_selectPos_of_all {p : String → Bool} {ixs : List ℕ}
    {l : List String} {k : ℕ} (h : ∀ f ∈ l, p f = true) :
    (selectPos ixs l k).filter p = selectPos ixs l k :=
  List.filter_eq_self.2 (fun f hf => h f (mem_of_mem_selectPos hf))

theorem filter_selectPos_of_none {p : String → Bool} {ixs : List ℕ}
    {l : List String} {k : ℕ} (h : ∀ f ∈ l, p f = false) :
    (selectPos ixs l k).filter p = [] := by
  rw [List.filter_eq_nil_iff]
  intro f hf
  simp [h f (mem_of_mem_selectPos hf)]

/-- C2, counterexample.  The claim reads explicit indices as positions into
the sorted listing *after* the `h5` filter, so non-`h5` names sorting before
the `h5` names should not matter.  On the source they do: in a directory
listing `["a.txt", "b.h5"]` with index selection `[0]`, the code selects
position 0 of the raw sorted listing (`"a.txt"`), filters it away, and
yields nothing, whereas with the non-`h5` entry absent the same selection
yields the frame of `"b.h5"`. -/
theorem legacySelection_prefilter_counterexample :
    legacySelectedFiles ["a.txt", "b.h5"] (some [0]) = [] ∧
    legacySelectedFiles ["b.h5"] (some [0]) = ["b.h5"] ∧
    legacySelectedFiles ["a.txt", "b.h5"] (some [0]) ≠
      legacySelectedFiles ["b.h5"] (some [0]) ∧
    specSelectedFiles ["a.txt", "b.h5"] (some [0]) = ["b.h5"] := by
  refine ⟨by decide, by decide, by decide, by decide⟩

/-- C2, amended.  In the legacy branch an explicit index is a position into
the lexicographically sorted but *unfiltered* directory listing; the `h5`
filter runs afterwards.  The claimed equivalence with the pre-filtered
reading holds exactly on the directories where it cannot bite: whenever
every non-`h5` entry sorts after every `h5` entry (in particular when there
is no non-`h5` entry), the files iterated over agree with the spec's
pre-filtered interpretation. -/
theorem legacySelection_positions_unfiltered (listing : List String)
    (ixs : List ℕ) (A B : List String)
    (hAB : sortListing listing = A ++ B)
    (hA : ∀ f ∈ A, isH5 f = true) (hB : ∀ f ∈ B, isH5 f = false) :
    legacySelectedFiles listing (some ixs) =
      specSelectedFiles listing (some ixs) := by
  have hfilter : (A ++ B).filter (fun f => isH5 f) = A := by
    rw [List.filter_append, List.filter_eq_self.2 hA,
      List.filter_eq_nil_iff.2 (by intro f hf; simp [hB f hf]),
      List.append_nil]
  show (selectPos ixs (sortListing listing) 0).filter (fun f => isH5 f) =
    selectPos ixs ((sortListing listing).filter (fun f => isH5 f)) 0
  rw [hAB, hfilter, selectPos_append, List.filter_append,
    filter_selectPos_of_all hA, filter_selectPos_of_none hB,
    List.append_nil]

/-- Witness for `legacySelection_positions_unfiltered` on a directory whose
sorted listing is two `h5` files followed by one text file. -/
theorem legacySelection_positions_unfiltered_witness :
    legacySelectedFiles ["z.txt", "a.h5", "b.h5"] (some [1]) =
      specSelectedFiles ["z.txt", "a.h5", "b.h5"] (some [1]) :=
  legacySelection_positions_unfiltered ["z.txt", "a.h5", "b.h5"] [1]
    ["a.h5", "b.h5"] ["z.txt"] (by decide) (by decide) (by decide)

/-! ## Error handling of the two layouts (claim C3) -/

theorem legacyYields_length_le {α : Type} (read : String → Option α)
    (files : List String) :
    (legacyYields read files).length ≤ files.length := by
  induction files with
  | nil => simp [legacyYields]
  | cons f fs ih =>
    simp only [legacyYields, List.length_cons]
    cases read f with
    | none => simpa [legacyYields] using Nat.le_succ_of_le ih
    | some v => simpa [legacyYields] using Nat.succ_le_succ ih

/-- C3.  The legacy branch wraps every read in a bare `try/except: continue`,
so a failing file is dropped and the others are yielded in listing order: a
failure strictly shortens the output, the output equals the one obtained
from the readable files alone, and on all-readable lists nothing is dropped.
The consolidated branch (`readAllOrFail`) and the parameter loader
(`readParams`) have no handler: one failing read turns the whole result into
an error. -/
theorem legacy_skip_consolidated_propagate {α : Type} :
    (∀ (read : String → Option α) (files : List String) (f : String),
      f ∈ files → read f = none →
      (legacyYields read files).length < files.length) ∧
    (∀ (read : String → Option α) (files : List String),
      legacyYields read files =
        legacyYields read (files.filter (fun f => (read f).isSome))) ∧
    (∀ (read : String → Option α) (files : List String),
      (∀ f ∈ files, (read f).isSome) →
      (legacyYields read files).length = files.length) ∧
    (∀ (read : String → Option α) (keys : List String) (k : String),
      k ∈ keys → read k = none →
      ∃ e, readAllOrFail read keys = .error e) ∧
    (∀ (V : Type) (fs : ParamFS V) (file : String), fs.h5 file = none →
      readParams fs file = .error ("could not read " ++ file)) := by
  refine ⟨?_, ?_, ?_, ?_, ?_⟩
  · intro read files f hmem hnone
    induction files with
    | nil => cases hmem
    | cons g gs ih =>
      rcases List.mem_cons.1 hmem with h1 | h2
      · subst h1
        simp only [legacyYields, hnone, List.length_cons]
        exact Nat.lt_succ_of_le (legacyYields_length_le read gs)
      · simp only [legacyYields, List.length_cons]
        cases read g with
        | none => exact Nat.lt_succ_of_lt (ih h2)
        | some v => simpa using Nat.succ_lt_succ (ih h2)
  · intro read files
    induction files with
    | nil => rfl
    | cons f fs ih =>
      simp only [legacyYields, List.filter_cons]
      cases hf : read f with
      | none => simpa [legacyYields, hf] using ih
      | some v => simpa [legacyYields, hf] using ih
  · intro read files hall
    induction files with
    | nil => rfl
    | cons f fs ih =>
      rcases Option.isSome_iff_exists.1 (hall f (List.mem_cons_self f fs))
        with ⟨v, hv⟩
      simp only [legacyYields, hv, List.length_cons]
      exact congrArg Nat.succ (ih (fun g hg => hall g (List.mem_cons_of_mem f hg)))
  · intro read keys k hmem hnone
    induction keys with
    | nil => cases hmem
    | cons p ps ih =>
      rcases List.mem_cons.1 hmem with h1 | h2
      · subst h1
        exact ⟨k, by simp [readAllOrFail, hnone]⟩
      · simp only [readAllOrFail]
        cases read p with
        | none => exact ⟨p, rfl⟩
        | some v =>
          rcases ih h2 with ⟨e, he⟩
          exact ⟨e, by rw [he]; rfl⟩
  · intro V fs file hnone
    simp [readParams, hnone]

/-- Witness for `legacy_skip_consolidated_propagate`: a directory with three
files of which `bad.h5` is unreadable, a consolidated key list hitting the
unreadable file, and a parameter read on a file system where every HDF5 read
fails. -/
theorem legacy_skip_consolidated_propagate_witness :
    (legacyYields readFailW ["a.h5", "bad.h5", "c.h5"]).length < 3 ∧
    (∃ e, readAllOrFail readFailW ["a.h5", "bad.h5"] = .error e) ∧
    readParams fsNoRead "x.h5" = .error ("could not read " ++ "x.h5") :=
  ⟨(@legacy_skip_consolidated_propagate ℕ).1 readFailW
      ["a.h5", "bad.h5", "c.h5"] "bad.h5" (by decide) (by decide),
   (@legacy_skip_consolidated_propagate ℕ).2.2.2.1 readFailW
      ["a.h5", "bad.h5"] "bad.h5" (by decide) (by decide),
   (@legacy_skip_consolidated_propagate ℕ).2.2.2.2 ℕ fsNoRead "x.h5" rfl⟩

/-! ## Consolidated-layout index resolution (claim C4) -/

/-- C4.  With an explicit index sequence the consolidated branch maps every
integer `k` to the zero-padded key `"%0.7d" % k`, reads
`/data/<key>/data` when `poissonize` is true and `/data/<key>/diffr`
otherwise, in the order the indices were given; the file's own key set is
ignored.  For indices `[3, 7]` with `poissonize = true` exactly the two
datasets `/data/0000003/data` and `/data/0000007/data` are read, in that
order. -/
theorem consolidatedIndices_padded_paths {α : Type} :
    (∀ (read : String → Option α) (fileKeys : List String) (ixs : List ℕ)
      (pz : Bool),
      consolidatedGenerator read fileKeys (some ixs) pz =
        readAllOrFail read (ixs.map (fun ix =>
          "/data/" ++ pad7 ix ++ "/" ++ (if pz then "data" else "diffr")))) ∧
    pad7 3 = "0000003" ∧
    pad7 7 = "0000007" ∧
    (∀ (read : String → Option α) (fileKeys : List String) (a b : α),
      read "/data/0000003/data" = some a →
      read "/data/0000007/data" = some b →
      consolidatedGenerator read fileKeys (some [3, 7]) true = .ok [a, b]) := by
  refine ⟨?_, by decide, by decide, ?_⟩
  · intro read fileKeys ixs pz
    show readAllOrFail read ((ixs.map pad7).map
      (fun k => "/data/" ++ k ++ "/" ++ (if pz then "data" else "diffr"))) = _
    rw [List.map_map]
    rfl
  · intro read fileKeys a b ha hb
    simp [consolidatedGenerator, consolidatedKeys, consolidatedDatasetPath,
      readAllOrFail]
    rw [show ("/data/" ++ pad7 3 ++ "/" ++ "data") = "/data/0000003/data"
        from by decide,
      show ("/data/" ++ pad7 7 ++ "/" ++ "data") = "/data/0000007/data"
        from by decide, ha, hb]
    rfl

/-- Witness for `consolidatedIndices_padded_paths` with a store holding the
patterns 31 and 32 under the padded keys of 3 and 7. -/
theorem consolidatedIndices_padded_paths_witness :
    consolidatedGenerator readW [] (some [3, 7]) true = .ok [31, 32] :=
  consolidatedIndices_padded_paths.2.2.2 readW [] 31 32 rfl rfl

/-! ## The pattern_indices setter (claim C5) -/

/-- C5.  The `pattern_indices` setter normalizes `None` to the sentinel
`'all'`, wraps an integer `k` into the one-element list `[k]`, and raises
`TypeError` on any value that is neither an integer, nor `'all'`, nor
iterable.  The check is pure and runs during `__init__` before
`diffractionParameters`, the constructor's first file access, so a rejected
assignment produces the same error whatever the file system holds. -/
theorem patternIndices_setter_spec :
    setPatternIndices .pynone = .ok (.pystr "all") ∧
    (∀ k : ℤ, setPatternIndices (.pyint k) = .ok (.pylist [k])) ∧
    (∀ v : PyVal, v.isInt = false → v ≠ .pystr "all" →
      v.hasIterAttr = false → v ≠ .pynone →
      setPatternIndices v =
        .error "TypeError: pattern_indices must be an int, iterable over ints, or all") ∧
    (∀ (π : Type) (v : PyVal) (lp lpAlt : Option π),
      setPatternIndices v =
        .error "TypeError: pattern_indices must be an int, iterable over ints, or all" →
      analysisInit v lp = analysisInit v lpAlt) := by
  refine ⟨rfl, fun k => rfl, ?_, ?_⟩
  · intro v hint hall hiter hnone
    cases v with
    | pynone => exact absurd rfl hnone
    | pyint k => simp [PyVal.isInt] at hint
    | pylist xs => simp [PyVal.hasIterAttr] at hiter
    | pyother => rfl
    | pystr s =>
      have hs : s ≠ "all" := fun h => hall (by rw [h])
      simp only [setPatternIndices, PyVal.isInt, PyVal.hasIterAttr]
      rw [if_neg]
      simp [hs]
  · intro π v lp lpAlt herr
    simp [analysisInit, herr]

/-- Witness for `patternIndices_setter_spec`: integer 5 is wrapped, a
non-iterable non-integer object is rejected, and the rejection is
independent of whether the parameter file is readable. -/
theorem patternIndices_setter_spec_witness :
    setPatternIndices (.pyint 5) = .ok (.pylist [5]) ∧
    setPatternIndices .pyother =
      .error "TypeError: pattern_indices must be an int, iterable over ints, or all" ∧
    analysisInit .pyother (some 0) = analysisInit .pyother (none : Option ℕ) :=
  ⟨patternIndices_setter_spec.2.1 5,
   patternIndices_setter_spec.2.2.1 .pyother rfl (by decide) rfl (by decide),
   patternIndices_setter_spec.2.2.2 ℕ .pyother (some 0) none
     (patternIndices_setter_spec.2.2.1 .pyother rfl (by decide) rfl (by decide))⟩

/-! ## Parameter loading (claim C8) -/

theorem dictInsert_of_fresh {V : Type} (d : List (String × V)) (k : String)
    (v : V) (h : ∀ kv ∈ d, kv.1 ≠ k) : dictInsert d k v = d ++ [(k, v)] := by
  induction d with
  | nil => rfl
  | cons kv rest ih =>
    have hk : kv.1 ≠ k := h kv (List.mem_cons_self kv rest)
    simp only [dictInsert, if_neg hk, List.cons_append]
    rw [ih (fun kv' hkv' => h kv' (List.mem_cons_of_mem kv hkv'))]

theorem buildDict_acc {V : Type} (entries acc : List (String × V))
    (hnd : (entries.map Prod.fst).Nodup)
    (hdisj : ∀ kv ∈ entries, ∀ kv' ∈ acc, kv'.1 ≠ kv.1) :
    entries.foldl (fun d kv => dictInsert d kv.1 kv.2) acc = acc ++ entries := by
  induction entries generalizing acc with
  | nil => simp
  | cons kv rest ih =>
    simp only [List.foldl_cons]
    rw [dictInsert_of_fresh acc kv.1 kv.2
      (fun kv' hkv' => hdisj kv (List.mem_cons_self kv rest) kv' hkv')]
    rw [ih (acc ++ [(kv.1, kv.2)])]
    · simp
    · exact (List.nodup_cons.1 (by simpa using hnd)).2
    · intro kv2 hkv2 kv' hkv'
      rcases List.mem_append.1 hkv' with hacc | hsingle
      · exact hdisj kv2 (List.mem_cons_of_mem kv hkv2) kv' hacc
      · have : kv' = (kv.1, kv.2) := by simpa using hsingle
        rw [this]
        have hnotin : kv.1 ∉ rest.map Prod.fst :=
          (List.nodup_cons.1 (by simpa using hnd)).1
        intro heq
        exact hnotin (heq ▸ List.mem_map_of_mem Prod.fst hkv2)

theorem buildDict_of_nodup {V : Type} (entries : List (String × V))
    (hnd : (entries.map Prod.fst).Nodup) : buildDict entries = entries := by
  have := buildDict_acc entries [] hnd (by intro kv _ kv' h; cases h)
  simpa [buildDict] using this

theorem dictGet_of_mem {V : Type} {entries : List (String × V)}
    (hnd : (entries.map Prod.fst).Nodup) {k : String} {v : V}
    (hmem : (k, v) ∈ entries) : dictGet entries k = some v := by
  induction entries with
  | nil => cases hmem
  | cons kv rest ih =>
    rcases List.mem_cons.1 hmem with h1 | h2
    · rw [← h1]
      simp [dictGet]
    · have hnotin : kv.1 ∉ rest.map Prod.fst :=
        (List.nodup_cons.1 (by simpa using hnd)).1
      have hne : kv.1 ≠ k := by
        intro heq
        exact hnotin (heq ▸ List.mem_map_of_mem Prod.fst h2)
      simp only [dictGet, if_neg hne]
      exact ih (List.nodup_cons.1 (by simpa using hnd)).2 h2

/-- C8.  `diffractionParameters` resolves a directory to the fixed file
`diffr_out_0000001.h5` inside it, reads a regular file directly, and raises
`IOError` before any read when the path is neither; on a successful read the
result holds the `params/beam` and `params/geom` children as dictionaries,
and (when the group keys are distinct, as in an HDF5 group) every child
entry is found under its own key with its verbatim value. -/
theorem diffractionParameters_routing {V : Type} :
    (∀ (fs : ParamFS V) (path : String), fs.isDir path = true →
      diffractionParameters fs path =
        readParams fs (dirJoin path "diffr_out_0000001.h5")) ∧
    (∀ (fs : ParamFS V) (path : String), fs.isDir path = false →
      fs.isFile path = true →
      diffractionParameters fs path = readParams fs path) ∧
    (∀ (fs : ParamFS V) (path : String), fs.isDir path = false →
      fs.isFile path = false →
      diffractionParameters fs path =
        .error (path ++ ": no such file or directory.")) ∧
    (∀ (fs : ParamFS V) (file : String) (pf : ParamFile V),
      fs.h5 file = some pf →
      readParams fs file = .ok (buildDict pf.beam, buildDict pf.geom)) ∧
    (∀ entries : List (String × V), (entries.map Prod.fst).Nodup →
      ∀ (k : String) (v : V), (k, v) ∈ entries →
        dictGet (buildDict entries) k = some v) := by
  refine ⟨?_, ?_, ?_, ?_, ?_⟩
  · intro fs path h
    simp [diffractionParameters, h]
  · intro fs path h1 h2
    simp [diffractionParameters, h1, h2]
  · intro fs path h1 h2
    simp [diffractionParameters, h1, h2]
  · intro fs file pf h
    simp [readParams, h]
  · intro entries hnd k v hmem
    rw [buildDict_of_nodup entries hnd]
    exact dictGet_of_mem hnd hmem

/-- Witness for `diffractionParameters_routing` on the concrete file system
`fsW`: directory resolution, direct file read, the not-found error, and the
verbatim copy of the `pixelWidth` entry. -/
theorem diffractionParameters_routing_witness :
    diffractionParameters fsW "dir" =
      readParams fsW (dirJoin "dir" "diffr_out_0000001.h5") ∧
    diffractionParameters fsW "file.h5" = readParams fsW "file.h5" ∧
    diffractionParameters fsW "nope" =
      .error ("nope" ++ ": no such file or directory.") ∧
    readParams fsW "file.h5" = .ok (buildDict pfW.beam, buildDict pfW.geom) ∧
    dictGet (buildDict pfW.geom) "pixelWidth" = some 22 :=
  ⟨(@diffractionParameters_routing ℤ).1 fsW "dir" rfl,
   (@diffractionParameters_routing ℤ).2.1 fsW "file.h5" rfl rfl,
   (@diffractionParameters_routing ℤ).2.2.1 fsW "nope" rfl rfl,
   (@diffractionParameters_routing ℤ).2.2.2.1 fsW "file.h5" pfW rfl,
   (@diffractionParameters_routing ℤ).2.2.2.2 pfW.geom (by decide)
     "pixelWidth" 22 (by decide)⟩

/-! ## Panel serialization (claim C1) -/

theorem linesConcat_append (xs ys : List String) :
    linesConcat (xs ++ ys) = linesConcat xs ++ linesConcat ys := by
  induction xs with
  | nil =>
    apply String.ext
    simp [linesConcat]
  | cons l ls ih =>
    show l ++ linesConcat (ls ++ ys) = (l ++ linesConcat ls) ++ linesConcat ys
    rw [ih, String.append_assoc]

theorem inv_num_den_of_pos (q : ℚ) (hq : 0 < q) :
    (q⁻¹).num = (q.den : ℤ) ∧ ((q⁻¹).den : ℤ) = q.num := by
  have hn : 0 < q.num := Rat.num_pos.2 hq
  have habs : (q.num.natAbs : ℤ) = q.num := Int.natAbs_of_nonneg hn.le
  have hnz : q.num.natAbs ≠ 0 := Int.natAbs_ne_zero.2 hn.ne'
  have hcop : ((q.den : ℤ).natAbs).Coprime q.num.natAbs := by
    simpa [Int.natAbs_ofNat] using (Nat.Coprime.symm q.reduced)
  have key : q⁻¹ = (⟨(q.den : ℤ), q.num.natAbs, hnz, hcop⟩ : ℚ) := by
    rw [Rat.inv_def', Rat.mk'_eq_divInt, habs]
  rw [key]
  exact ⟨rfl, habs⟩

theorem recipFormat_eq_sciFormat_inv (q : ℚ) (hq : 0 < q) :
    recipFormat q = sciFormat q⁻¹ := by
  obtain ⟨h1, h2⟩ := inv_num_den_of_pos q hq
  have hpos : 0 < (q⁻¹).num := by
    rw [h1]
    exact_mod_cast q.pos
  rw [sciFormat, if_neg hpos.ne', if_neg (not_lt.2 hpos.le), h1, h2]
  rfl

set_option maxRecDepth 8000

/-- C1.  For every panel, `_serialize` with index 0 ends in the `clen` and
`res` lines followed by one blank line, where `clen` is the distance from
the interaction plane in meters and `res` the reciprocal of the pixel size
in meters (computed at serialization time), both in `%.7e` format; at the
unit test's values the two lines are byte-exact as claimed, and on the whole
test panel the serialization equals the test's reference block. -/
theorem panelSerialize_res_clen :
    (∀ q : ℚ, 0 < q → recipFormat q = sciFormat q⁻¹) ∧
    (∀ p : DetectorPanel, ∃ pre : String,
      serializePanel 0 p = pre ++
        (panelLine 0 "clen" (sciFormat p.distance_from_interaction_plane) ++
          (panelLine 0 "res" (recipFormat p.pixel_size) ++ "\n"))) ∧
    pixelSizeTest = 2.2e-4 ∧
    distanceTest = 0.13 ∧
    panelLine 0 "clen" (sciFormat distanceTest) =
      "panel0/clen          = 1.3000000e-01\n" ∧
    panelLine 0 "res" (recipFormat pixelSizeTest) =
      "panel0/res           = 4.5454545e+03\n" ∧
    serializePanel 0 testPanel = referenceSerialization := by
  refine ⟨recipFormat_eq_sciFormat_inv, ?_, ?_, ?_, by decide, by decide,
    by decide⟩
  · intro p
    refine ⟨linesConcat ((panelLines 0 p).take 9), ?_⟩
    have hsplit : panelLines 0 p = (panelLines 0 p).take 9 ++
        [panelLine 0 "clen" (sciFormat p.distance_from_interaction_plane),
         panelLine 0 "res" (recipFormat p.pixel_size), "\n"] := rfl
    conv_lhs => rw [serializePanel, hsplit, linesConcat_append]
    rfl
  · rw [show pixelSizeTest = ((11 : ℤ) : ℚ) / ((50000 : ℕ) : ℚ) by
      rw [pixelSizeTest, Rat.mk'_eq_divInt, Rat.divInt_eq_div]; norm_num]
    norm_num
  · rw [show distanceTest = ((13 : ℤ) : ℚ) / ((100 : ℕ) : ℚ) by
      rw [distanceTest, Rat.mk'_eq_divInt, Rat.divInt_eq_div]; norm_num]
    norm_num

/-- Witness for `panelSerialize_res_clen`: the reciprocal-format identity
instantiated at the test pixel size, and the suffix decomposition at the
test panel. -/
theorem panelSerialize_res_clen_witness :
    recipFormat pixelSizeTest = sciFormat pixelSizeTest⁻¹ ∧
    (∃ pre : String, serializePanel 0 testPanel = pre ++
      (panelLine 0 "clen" (sciFormat testPanel.distance_from_interaction_plane) ++
        (panelLine 0 "res" (recipFormat testPanel.pixel_size) ++ "\n"))) :=
  ⟨panelSerialize_res_clen.1 pixelSizeTest (by decide),
   panelSerialize_res_clen.2.1 testPanel⟩

/-! ## Resolution rings (claims C6 and C7) -/

theorem radius_step {x y : ℝ} (hx : 0 ≤ x) (hxy : x < y) (hy : y ≤ 1) :
    (0.13 / 2.2e-4 : ℝ) * Real.arctan (Real.arcsin x) <
      0.13 / 2.2e-4 * Real.arctan (Real.arcsin y) := by
  have hK : (0 : ℝ) < 0.13 / 2.2e-4 := by norm_num
  have harcsin : Real.arcsin x < Real.arcsin y :=
    Real.strictMonoOn_arcsin ⟨by linarith, by linarith⟩
      ⟨by linarith, hy⟩ hxy
  exact mul_lt_mul_of_pos_left (Real.arctan_strictMono harcsin) hK

theorem arctan_pos_of_pos {t : ℝ} (ht : 0 < t) : 0 < Real.arctan t := by
  have := Real.arctan_strictMono ht
  rwa [Real.arctan_zero] at this

/-- C6, counterexample.  At `photonEnergy = 6000 eV`,
`pixelWidth = 2.2e-4 m`, `detectorDist = 0.13 m`, the ring radii do not
decrease as the target spacing decreases from 1.0 nm to 0.3 nm: already the
radius at 0.5 nm exceeds the radius at 1.0 nm. -/
theorem ringRadii_not_decreasing :
    ¬ (ringRadius6000 0.5 < ringRadius6000 1 ∧
        ringRadius6000 0.3 < ringRadius6000 0.5) := by
  rintro ⟨h1, _⟩
  have hstep : ringRadius6000 1 < ringRadius6000 0.5 := by
    show (0.13 / 2.2e-4 : ℝ) * Real.arctan (Real.arcsin (1239.8 / 6000 / 2 / 1)) <
      0.13 / 2.2e-4 * Real.arctan (Real.arcsin (1239.8 / 6000 / 2 / 0.5))
    exact radius_step (by norm_num) (by norm_num) (by norm_num)
  linarith

/-- C6, amended.  At the fixed parameters the three ring radii for target
spacings 1.0, 0.5, 0.3 nm are positive (hence finite) and strictly
*increase* as the target spacing decreases — equivalently, the radius is a
strictly decreasing function of the spacing. -/
theorem ringRadii_increasing_as_spacing_decreases :
    0 < ringRadius6000 1 ∧
    ringRadius6000 1 < ringRadius6000 0.5 ∧
    ringRadius6000 0.5 < ringRadius6000 0.3 := by
  refine ⟨?_, ?_, ?_⟩
  · show (0 : ℝ) < 0.13 / 2.2e-4 * Real.arctan (Real.arcsin (1239.8 / 6000 / 2 / 1))
    have hx : (0 : ℝ) < 1239.8 / 6000 / 2 / 1 := by norm_num
    exact mul_pos (by norm_num)
      (arctan_pos_of_pos (Real.arcsin_pos.2 hx))
  · show (0.13 / 2.2e-4 : ℝ) * Real.arctan (Real.arcsin (1239.8 / 6000 / 2 / 1)) <
      0.13 / 2.2e-4 * Real.arctan (Real.arcsin (1239.8 / 6000 / 2 / 0.5))
    exact radius_step (by norm_num) (by norm_num) (by norm_num)
  · show (0.13 / 2.2e-4 : ℝ) * Real.arctan (Real.arcsin (1239.8 / 6000 / 2 / 0.5)) <
      0.13 / 2.2e-4 * Real.arctan (Real.arcsin (1239.8 / 6000 / 2 / 0.3))
    exact radius_step (by norm_num) (by norm_num) (by norm_num)

/-- C7.  The code does not validate the trigonometric domain: with
`photonEnergy = 1000 eV` (wavelength 1.2398 nm) the argument
`lmd/2/0.3 ≈ 2.066` exceeds 1, `numpy.arcsin` produces NaN instead of
raising, and the radius computation still completes with a 3-element result
whose last ring is NaN; likewise a negative photon energy silently yields a
negative ring radius.  No numeric-domain error reaches the caller. -/
theorem ringRadii_nan_not_surfaced :
    (ringRadiiNumpy 1000 2.2e-4 0.13).length = 3 ∧
    (ringRadiiNumpy 1000 2.2e-4 0.13).getD 2 (some 0) = none ∧
    (∃ r : ℝ, (ringRadiiNumpy (-6000) 2.2e-4 0.13).getD 0 none = some r ∧
      r < 0) := by
  refine ⟨by simp [ringRadiiNumpy], ?_, ?_⟩
  · show ((arcsinNumpy (1239.8 / 1000 / 2 / 0.3)).map
      (fun a => (0.13 : ℝ) / 2.2e-4 * Real.arctan a)) = none
    rw [arcsinNumpy, if_neg]
    · rfl
    · rintro ⟨-, h2⟩
      norm_num at h2
  · have hx : (-1 : ℝ) ≤ 1239.8 / (-6000) / 2 / 1 ∧
        (1239.8 / (-6000) / 2 / 1 : ℝ) ≤ 1 := by norm_num
    refine ⟨0.13 / 2.2e-4 * Real.arctan (Real.arcsin (1239.8 / (-6000) / 2 / 1)), ?_, ?_⟩
    · show ((arcsinNumpy (1239.8 / (-6000) / 2 / 1)).map
        (fun a => (0.13 : ℝ) / 2.2e-4 * Real.arctan a)) = _
      rw [arcsinNumpy, if_pos hx]
      rfl
    · have hneg : Real.arcsin (1239.8 / (-6000) / 2 / 1) < 0 :=
        Real.arcsin_lt_zero.2 (by norm_num)
      have harctan : Real.arctan (Real.arcsin (1239.8 / (-6000) / 2 / 1)) < 0 := by
        have := Real.arctan_strictMono hneg
        rwa [Real.arctan_zero] at this
      exact mul_neg_of_pos_of_neg (by norm_num) harctan

/-! ## Photon statistics (claims C9 and C10) -/

theorem foldl_min_le (xs : List ℚ) (a : ℚ) : xs.foldl min a ≤ a := by
  induction xs generalizing a with
  | nil => exact le_refl a
  | cons y ys ih => exact le_trans (ih (min a y)) (min_le_left a y)

theorem le_foldl_max (xs : List ℚ) (a : ℚ) : a ≤ xs.foldl max a := by
  induction xs generalizing a with
  | nil => exact le_refl a
  | cons y ys ih => exact le_trans (le_max_left a y) (ih (max a y))

theorem listMin_le_listMax {l : List ℚ} (h : l ≠ []) :
    listMin l ≤ listMax l := by
  cases l with
  | nil => exact absurd rfl h
  | cons x xs =>
    exact le_trans (foldl_min_le xs x) (le_foldl_max xs x)

theorem intTrunc_eq_zero {q : ℚ} (h0 : 0 ≤ q) (h1 : q < 1) :
    intTrunc q = 0 := by
  have hnum : 0 ≤ q.num := Rat.num_nonneg.2 h0
  have hlt : q.num < (q.den : ℤ) := Rat.lt_one_iff_num_lt_denom.1 h1
  rw [intTrunc, Int.tdiv_eq_ediv hnum (by positivity)]
  exact Int.ediv_eq_zero_of_lt hnum hlt

/-- C9.  Photon statistics on the stack `stackC9`, whose per-frame totals
are 10, 20 and 30: the average is the arithmetic mean 20 and the reported
standard deviation is the population (N-divisor) value
`sqrt(200/3) ≈ 8.165`, within `10⁻³` of the spec's quoted 8.165. -/
theorem photonStatistics_mean_std :
    photonsOf stackC9 = [10, 20, 30] ∧
    (photonStatistics stackC9).avg = 20 ∧
    |(photonStatistics stackC9).rms - 8.165| < 1 / 1000 := by
  have hphotons : photonsOf stackC9 = [10, 20, 30] := by
    show [frameSum [[1, 2], [3, 4]], frameSum [[5, 5], [4, 6]],
      frameSum [[10, 5], [7, 8]]] = [10, 20, 30]
    norm_num [frameSum]
  have havg : avgPhotons stackC9 = 20 := by
    rw [avgPhotons, hphotons]
    norm_num [stackC9]
  have hvar : varPhotons stackC9 = 200 / 3 := by
    rw [varPhotons, hphotons, havg]
    norm_num [stackC9]
  refine ⟨hphotons, havg, ?_⟩
  show |stdPhotons stackC9 - 8.165| < 1 / 1000
  rw [stdPhotons, hvar]
  have hcast : (((200 / 3 : ℚ) : ℚ) : ℝ) = 200 / 3 := by push_cast; ring
  rw [hcast]
  have hub : Real.sqrt (200 / 3) < 8.165 := by
    rw [Real.sqrt_lt' (by norm_num)]
    norm_num
  have hlb : (8.164 : ℝ) < Real.sqrt (200 / 3) := by
    rw [Real.lt_sqrt (by norm_num)]
    norm_num
  rw [abs_sub_lt_iff]
  constructor <;> linarith

/-- C10.  Whenever the per-frame totals vary by less than the bin count
`min(20, N)` — in particular when they are all equal — the truncated bin
width `int((max-min)/min(20,N))` is zero and the histogram's `xrange` call
raises `ValueError`; the average and standard deviation are nevertheless
computed (and printed) before the failure. -/
theorem photonStatistics_degenerate_hist (stack : List Frame)
    (hne : stack ≠ [])
    (hlt : listMax (photonsOf stack) - listMin (photonsOf stack) <
      ((min 20 stack.length : ℕ) : ℚ)) :
    (photonStatistics stack).hist =
      .error "ValueError: xrange() arg 3 must not be zero" ∧
    (photonStatistics stack).avg = avgPhotons stack ∧
    (photonStatistics stack).rms = stdPhotons stack := by
  refine ⟨?_, rfl, rfl⟩
  show histBins stack = .error "ValueError: xrange() arg 3 must not be zero"
  have hmapne : photonsOf stack ≠ [] := by
    rw [photonsOf]
    exact fun h => hne (List.map_eq_nil_iff.1 h)
  have hd : (0 : ℚ) ≤ listMax (photonsOf stack) - listMin (photonsOf stack) :=
    sub_nonneg.2 (listMin_le_listMax hmapne)
  have hbins : (0 : ℚ) < ((min 20 stack.length : ℕ) : ℚ) := by
    have : 0 < min 20 stack.length :=
      Nat.lt_min.2 ⟨by norm_num, List.length_pos.2 hne⟩
    exact_mod_cast this
  have hzero : intTrunc ((listMax (photonsOf stack) -
      listMin (photonsOf stack)) / ((min 20 stack.length : ℕ) : ℚ)) = 0 := by
    apply intTrunc_eq_zero
    · exact div_nonneg hd hbins.le
    · exact (div_lt_one hbins).2 hlt
  show (if intTrunc ((listMax (photonsOf stack) - listMin (photonsOf stack)) /
      ((min 20 stack.length : ℕ) : ℚ)) = 0 then
      (Except.error "ValueError: xrange() arg 3 must not be zero" :
        Except String (List ℤ))
    else .ok (xrangeZ (intTrunc (listMin (photonsOf stack)))
      (intTrunc (listMax (photonsOf stack)))
      (intTrunc ((listMax (photonsOf stack) - listMin (photonsOf stack)) /
        ((min 20 stack.length : ℕ) : ℚ))))) =
    .error "ValueError: xrange() arg 3 must not be zero"
  rw [if_pos hzero]

/-- Witness for `photonStatistics_degenerate_hist` on the all-equal stack
`stackC10`. -/
theorem photonStatistics_degenerate_hist_witness :
    (photonStatistics stackC10).hist =
      .error "ValueError: xrange() arg 3 must not be zero" ∧
    (photonStatistics stackC10).avg = avgPhotons stackC10 ∧
    (photonStatistics stackC10).rms = stdPhotons stackC10 :=
  photonStatistics_degenerate_hist stackC10 (by simp [stackC10])
    (by norm_num [stackC10, photonsOf, frameSum, listMax, listMin])

end Simex
